import Mathlib

/-!
Verification development for the archive-extraction subsystem of
`unzip_all_in_currentdir.py` (ZIP/RAR batch extractor).

The Python source is shallowly embedded: pure decision logic (extension
classification, the password-candidate loop, the integrity validator's
branching, the disk-space preflight, the staged-extraction pipeline, the
collision/rename loop, and the orchestrator's retry loop) is translated
into executable Lean definitions.  Interactions with the archive
libraries and the operating system (opening an archive, testing a
member, extracting, raising exceptions) are abstracted as behaviour
records whose fields say what each such call would do; the control flow
around those calls is translated literally from the source.
-/

/-- Archive formats supported by `get_archive_opener`. -/
inductive ArchFormat
  | zip
  | rar
deriving DecidableEq

/-- Python truthiness of an optional string (`None` and `""` are falsy). -/
def pyTruthyStr : Option String → Bool
  | none => false
  | some s => !(s == "")

/-- Python truthiness of an optional list (`None` and `[]` are falsy). -/
def pyTruthyList : Option (List String) → Bool
  | none => false
  | some l => !l.isEmpty

/-- Index of the last '.' in a character list (CPython `str.rfind`). -/
def lastDotIdx (cs : List Char) : Option Nat :=
  ((List.range cs.length).filter (fun i => cs.getD i ' ' == '.')).getLast?

/-- CPython `pathlib.PurePath.suffix`: the part of the final component from
the last dot on, provided that dot is neither the first nor the last
character; otherwise the empty string. -/
def pySuffix (name : String) : String :=
  match lastDotIdx name.toList with
  | some i =>
    if 0 < i ∧ i < name.toList.length - 1 then String.mk (name.toList.drop i) else ""
  | none => ""

/-- CPython `pathlib.PurePath.stem`: the final component without `pySuffix`. -/
def pyStem (name : String) : String :=
  match lastDotIdx name.toList with
  | some i =>
    if 0 < i ∧ i < name.toList.length - 1 then String.mk (name.toList.take i) else name
  | none => name

/-- ASCII lower-casing of one character (CPython `str.lower` restricted
to the ASCII range relevant to extensions). -/
def lowerChar (c : Char) : Char :=
  if 'A' ≤ c ∧ c ≤ 'Z' then Char.ofNat (c.toNat + 32) else c

/-- ASCII `str.lower`. -/
def strToLower (s : String) : String := String.mk (s.toList.map lowerChar)

/-- `get_archive_opener`: classify by lower-cased extension; `.rar` may
additionally fail when the rarfile library probe raises (`rarLibOk = false`
models the `NeedFirstVolume` / library-error branches that return `None`). -/
def get_archive_opener (name : String) (rarLibOk : Bool) : Option ArchFormat :=
  if strToLower (pySuffix name) == ".zip" then some ArchFormat.zip
  else if strToLower (pySuffix name) == ".rar" then
    (if rarLibOk then some ArchFormat.rar else none)
  else none

/-- Exception kinds observable in `try_passwords`' loop body.  Every one of
them is handled by an `except ...: continue` clause in the source. -/
inductive PwExn
  | runtimeOrBadZip
  | badRar
  | passwordRequired
  | otherExn
deriving DecidableEq

/-- Behaviour of one archive as seen by `try_passwords`:
`fmt` is the `get_archive_opener` result; `openList p` is the outcome of
`ArchiveOpener(path, 'r')` + `setpassword(p)` + `namelist()` under candidate
`p`; `test p` is the outcome of the password probe (`testzip()` for ZIP,
reading the first member for RAR) under candidate `p`. -/
structure PwArchive where
  fmt : Option ArchFormat
  openList : String → Except PwExn (List String)
  test : String → Except PwExn Unit

/-- The candidate loop of `try_passwords` (source lines 59–108): every
exception — password errors and structural corruption alike — is caught and
the loop continues with the next candidate; an empty `namelist()` returns
the current candidate immediately. -/
def tryLoop (a : PwArchive) : List String → Option String
  | [] => none
  | p :: rest =>
    match a.openList p with
    | .error _ => tryLoop a rest
    | .ok fileList =>
      if fileList.isEmpty then some p
      else
        match a.test p with
        | .ok _ => some p
        | .error _ => tryLoop a rest

/-- `try_passwords`: `None` for a falsy candidate list or unsupported
format, otherwise the candidate loop. -/
def try_passwords (a : PwArchive) (passwords : Option (List String)) : Option String :=
  match passwords with
  | none => none
  | some ps =>
    if ps.isEmpty then none
    else
      match a.fmt with
      | none => none
      | some _ => tryLoop a ps

/-- Instrumentation of `tryLoop`: how many candidates the loop attempts
before returning.  Mirrors `tryLoop` case for case. -/
def tryLoopProbes (a : PwArchive) : List String → Nat
  | [] => 0
  | p :: rest =>
    match a.openList p with
    | .error _ => 1 + tryLoopProbes a rest
    | .ok fileList =>
      if fileList.isEmpty then 1
      else
        match a.test p with
        | .ok _ => 1
        | .error _ => 1 + tryLoopProbes a rest

/-- Whether `tryLoop` would accept candidate `p` when it reaches it. -/
def accepts (a : PwArchive) (p : String) : Bool :=
  match a.openList p with
  | .error _ => false
  | .ok fileList =>
    fileList.isEmpty ||
      (match a.test p with
       | .ok _ => true
       | .error _ => false)

/-- Outcome of the integrity test performed by `is_valid_archive` on an
open archive (the body of the `try` at source lines 120–148, plus the
exception classes of lines 150–164). -/
inductive ValOutcome
  | testzipNone
  | testzipBadFile
  | testrarOk
  | testrarBadRar
  | raisesPasswordRequired
  | raisesCorrupt
  | raisesFileNotFound
  | raisesOther
deriving DecidableEq

/-- Behaviour of one archive as seen by `is_valid_archive`: `run pw` is
what opening and integrity-testing the archive does under the optional
password `pw`. -/
structure ValArchive where
  fmt : Option ArchFormat
  run : Option String → ValOutcome

/-- `is_valid_archive` (source lines 113–164). Note line 156: a
`PasswordRequired` exception makes the validator return `not password` —
a plain boolean, `True` when no (truthy) password was supplied and `False`
otherwise. -/
def is_valid_archive (a : ValArchive) (password : Option String) : Bool :=
  match a.fmt with
  | none => false
  | some _ =>
    match a.run password with
    | .testzipNone => true
    | .testzipBadFile => false
    | .testrarOk => true
    | .testrarBadRar => false
    | .raisesPasswordRequired => !(pyTruthyStr password)
    | .raisesCorrupt => false
    | .raisesFileNotFound => false
    | .raisesOther => false

/-- One archive member as seen in `infolist()`: a filename and an
uncompressed `file_size` (directory entries carry size 0). -/
structure Member where
  filename : String
  file_size : Nat
deriving DecidableEq

/-- Exception kinds around the extraction pipeline.  `badArchive` stands
for `BadZipFile` / `BadRarFile` / `PasswordRequired` (caught at source
line 377), `permission` for `PermissionError` (line 381), `otherExn` for
any other `Exception` (line 384); `fatalExn` stands for a
`BaseException` (e.g. `KeyboardInterrupt`) that none of those handlers
catches and that therefore propagates out of `extract_archive`. -/
inductive ExnKind
  | badArchive
  | permission
  | otherExn
  | fatalExn
deriving DecidableEq

/-- How `extract_archive` exits: a normal `return` of a boolean, or a
propagating fatal exception. -/
inductive ExtOut
  | ret (b : Bool)
  | fatal
deriving DecidableEq

/-- Behaviour of one archive (plus environment) as seen by
`extract_archive`:
* `fmt` — the `get_archive_opener` result;
* `preflightTotal` — `some` of the summed `file_size` over `infolist()`
  when the disk-space `try` block can compute it, `none` when any part of
  that block raises;
* `openExn` — exception (if any) raised by `ArchiveOpener(path, 'r')` /
  `infolist()` in the main `try` block;
* `setPasswordFails` — whether `setpassword` raises (source line 323);
* `members` — the `infolist()` manifest;
* `memberOk m` — whether `archive_ref.extract(m, ...)` succeeds for
  member `m` on the large-archive per-member path;
* `extractAllOk` — whether `extractall` succeeds on the small-archive
  path;
* `moveOk` — the boolean returned by
  `move_files_with_collision_handling` (source only logs it);
* `verifyExn` — exception (if any) raised re-opening the archive for
  verification;
* `verifyOk` — the boolean returned by `verify_extracted_files`. -/
structure ArchiveBehavior where
  fmt : Option ArchFormat
  preflightTotal : Option Nat
  openExn : Option ExnKind
  setPasswordFails : Bool
  members : List Member
  memberOk : Member → Bool
  extractAllOk : Bool
  moveOk : Bool
  verifyExn : Option ExnKind
  verifyOk : Bool

/-- `PROGRESS_THRESHOLD_MB` (source line 15). -/
def PROGRESS_THRESHOLD_MB : Nat := 10

/-- The byte threshold `PROGRESS_THRESHOLD_MB * 1024 * 1024` above which
the per-member extraction path with a progress bar is used. -/
def thresholdBytes : Nat := PROGRESS_THRESHOLD_MB * 1024 * 1024

/-- `RETRY_COUNT` (source line 16). -/
def RETRY_COUNT : Nat := 3

/-- Sum of `file_size` over a list of members. -/
def totalSize (ms : List Member) : Nat := (ms.map Member.file_size).sum

/-- `int(total_size * 1.1)` (source line 301): the 10% safety margin.
The float multiplication-and-truncation is modelled exactly on the
rationals as `total * 11 / 10` (Nat division); the two agree on every
input used in this development. -/
def requiredSize (total : Nat) : Nat := total * 11 / 10

/-- Filesystem model for the staging lifecycle: the temporary
directories currently existing, plus a counter from which
`tempfile.TemporaryDirectory` draws the next fresh name. -/
structure FS where
  nextId : Nat
  staging : List Nat
deriving DecidableEq

/-- Result of the `try` block inside the `with TemporaryDirectory`
(source lines 314–386, before the `except` handlers run):
`out` is a normal return value or an exception; `extractionRan` says the
member-extraction stage was reached; `staged` is the list of members
present in the staging directory at the point the move stage would run;
`moveCalled` says `move_files_with_collision_handling` was invoked. -/
structure BodyTrace where
  out : Except ExnKind Bool
  extractionRan : Bool
  staged : List Member
  moveCalled : Bool

/-- The tail of the pipeline once staging is populated (source lines
352–375): the move's boolean result is only logged, then the archive is
re-opened for verification (which may raise), and `verify_extracted_files`'
boolean decides between `return False` and `return True`. -/
def afterStaging (b : ArchiveBehavior) (staged : List Member) : BodyTrace :=
  match b.verifyExn with
  | some e => ⟨.error e, true, staged, true⟩
  | none => ⟨.ok b.verifyOk, true, staged, true⟩

/-- The `try` block of `extract_archive` (source lines 314–375): open
(may raise), set password (failure returns `False`), then either the
per-member loop — where a member failure is logged and the loop
*continues* (the `return False` at line 342 is commented out) — or
`extractall` — whose failure returns `False` before any move; in both
surviving cases move and verify follow. -/
def extractTryBody (b : ArchiveBehavior) (password : Option String) : BodyTrace :=
  match b.openExn with
  | some e => ⟨.error e, false, [], false⟩
  | none =>
    if pyTruthyStr password && b.setPasswordFails then ⟨.ok false, false, [], false⟩
    else
      if totalSize b.members > thresholdBytes then
        afterStaging b (b.members.filter b.memberOk)
      else
        if b.extractAllOk then afterStaging b b.members
        else ⟨.ok false, true, [], false⟩

/-- Observable trace of one `extract_archive` call. -/
structure ExtractTrace where
  out : ExtOut
  preflightBlocked : Bool
  extractionRan : Bool
  staged : List Member
  moveCalled : Bool

/-- `extract_archive` (source lines 284–387): unsupported format returns
`False`; the disk-space preflight returns `False` when the computed
requirement exceeds the free bytes and proceeds when the computation
itself fails; then `with tempfile.TemporaryDirectory(...)` creates a
fresh staging directory, runs the `try` body, converts every caught
exception into `return False` (a `fatalExn` propagates instead), and —
on every one of those exits — removes the staging directory again. -/
def extract_archive (b : ArchiveBehavior) (password : Option String)
    (freeBytes : Nat) (fs : FS) : ExtractTrace × FS :=
  match b.fmt with
  | none => (⟨.ret false, false, false, [], false⟩, fs)
  | some _ =>
    let blocked : Bool :=
      match b.preflightTotal with
      | some t => decide (requiredSize t > freeBytes)
      | none => false
    if blocked then (⟨.ret false, true, false, [], false⟩, fs)
    else
      let tempId := fs.nextId
      let fs1 : FS := ⟨fs.nextId + 1, tempId :: fs.staging⟩
      let tr := extractTryBody b password
      let out : ExtOut :=
        match tr.out with
        | .ok bb => .ret bb
        | .error .fatalExn => .fatal
        | .error _ => .ret false
      (⟨out, false, tr.extractionRan, tr.staged, tr.moveCalled⟩,
       ⟨fs1.nextId, fs1.staging.erase tempId⟩)

/-- Collision strategies (source CLI choices `skip`/`overwrite`/`rename`). -/
inductive Collision
  | skip
  | overwrite
  | rename
deriving DecidableEq

/-- Python `str.split('.')` over a character list. -/
def splitOnDot : List Char → List (List Char)
  | [] => [[]]
  | c :: rest =>
    let r := splitOnDot rest
    if c == '.' then [] :: r
    else
      match r with
      | [] => [[c]]
      | g :: gs => (c :: g) :: gs

/-- Python `'.'.join(...)`. -/
def joinDots : List String → String
  | [] => ""
  | [s] => s
  | s :: rest => s ++ "." ++ joinDots rest

/-- The base-name/extension split used by the rename branch (source lines
244–251): `stem`/`suffix` normally, but for names with more than one dot
the explicit split on dots (which computes the same anchor: everything
before the last dot, and the last dot onward). -/
def splitBaseExt (name : String) : String × String :=
  if (name.toList.filter (fun c => c == '.')).length > 1 then
    let parts := (splitOnDot name.toList).map String.mk
    (joinDots parts.dropLast, "." ++ parts.getLastD "")
  else
    (pyStem name, pySuffix name)

/-- The rename `while True` loop (source lines 254–265), with the loop
counter paired with the structural fuel `1000 - counter` so that the
definition computes: try `base_counter ++ ext`; an unused name wins;
otherwise increment, giving up (returning `none`) once the counter
passes 999.  Every call keeps `counter + fuel = 1000`, under which the
fuel never runs out before the source's own `counter > 999` exit. -/
def renameSearchAux (ex : String → Bool) (base ext : String) :
    Nat → Nat → Option String
  | _, 0 => none
  | counter, fuel + 1 =>
    if ex (base ++ "_" ++ toString counter ++ ext) = false then
      some (base ++ "_" ++ toString counter ++ ext)
    else if counter + 1 > 999 then none
    else renameSearchAux ex base ext (counter + 1) fuel

/-- The rename loop entered with `counter = 1` (source line 243). -/
def renameSearch (ex : String → Bool) (base ext : String) : Option String :=
  renameSearchAux ex base ext 1 999

/-- One item walked by `move_files_with_collision_handling`'s `rglob`:
its destination parent directory and final component, whether source and
existing destination are both directories, and whether the removal (for
`overwrite`) or the `shutil.move` would fail for it. -/
structure MoveItem where
  parent : String
  name : String
  bothDirs : Bool
  rmFails : Bool
  moveFails : Bool
deriving DecidableEq

/-- Destination path of a component under a parent. -/
def pathOf (parent name : String) : String := parent ++ "/" ++ name

/-- `shutil.move` of one item to `destPath` (source lines 269–274): on
failure the item is logged, `all_moved` is cleared and the walk
continues; on success the destination path now exists.  Returns
(item-ok, updated filesystem, performed move if any). -/
def doMove (it : MoveItem) (fsPaths : List String) (destPath : String) :
    Bool × List String × Option (String × String) :=
  if it.moveFails then (false, fsPaths, none)
  else (true, destPath :: fsPaths, some (it.name, destPath))

/-- Decision and action for one item (source lines 217–274): existing
destination triggers the collision strategy — both-directories continues
without moving, `skip` skips, `overwrite` removes then moves, `rename`
runs `renameSearch` from counter 1 and either moves to the fresh name or
(after 999 used names) marks the item failed and skips it. -/
def moveStep (strat : Collision) (it : MoveItem) (fsPaths : List String) :
    Bool × List String × Option (String × String) :=
  let dest := pathOf it.parent it.name
  if fsPaths.contains dest then
    if it.bothDirs then (true, fsPaths, none)
    else
      match strat with
      | .skip => (true, fsPaths, none)
      | .overwrite =>
        if it.rmFails then (false, fsPaths, none)
        else doMove it (fsPaths.erase dest) dest
      | .rename =>
        match renameSearch (fun nm => fsPaths.contains (pathOf it.parent nm))
            (splitBaseExt it.name).1 (splitBaseExt it.name).2 with
        | some nm => doMove it fsPaths (pathOf it.parent nm)
        | none => (false, fsPaths, none)
  else doMove it fsPaths dest

/-- Aggregate outcome of `move_files_with_collision_handling`:
the returned `all_moved` flag, the destination filesystem afterwards,
the moves actually performed (source component ↦ final destination
path), and how many walked items were handled. -/
structure MoveOutcome where
  all_moved : Bool
  fsPaths : List String
  performed : List (String × String)
  itemsProcessed : Nat
deriving DecidableEq

/-- `move_files_with_collision_handling` (source lines 209–281) over the
walked items: every item is handled in turn — a per-item failure only
clears `all_moved` — and the final flag is the conjunction of the
per-item results. -/
def move_files (strat : Collision) : List MoveItem → List String → MoveOutcome
  | [], fsPaths => ⟨true, fsPaths, [], 0⟩
  | it :: rest, fsPaths =>
    let s := moveStep strat it fsPaths
    let r := move_files strat rest s.2.1
    ⟨s.1 && r.all_moved, r.fsPaths,
      (match s.2.2 with
       | some mv => mv :: r.performed
       | none => r.performed),
      r.itemsProcessed + 1⟩

/-- Outcome of one `extract_archive(...)` call as seen by the
orchestrator's retry loop: a `True`/`False` return, a caught
`PermissionError`, or any other unexpected exception. -/
inductive AttemptOutcome
  | success
  | failure
  | permErr
  | unexpectedErr
deriving DecidableEq

/-- Bridge from an `extract_archive` trace to what the orchestrator's
`try`/`except` observes. -/
def outcomeOf (t : ExtractTrace) : AttemptOutcome :=
  match t.out with
  | .ret true => .success
  | .ret false => .failure
  | .fatal => .unexpectedErr

/-- Counters and per-archive effects contributed by one pass of the
orchestrator's retry loop. -/
structure RetryTrace where
  processed : Nat
  failed : Nat
  attempts : Nat
  deletedOriginal : Bool
  success : Bool
deriving DecidableEq

/-- The retry loop of `process_directory` (source lines 452–487), taking
the outcomes of the successive `extract_archive` calls for the attempts
still to run: success counts the archive as processed, deletes the
original unless `keep`, and breaks; an unexpected exception breaks
without touching either counter; a `False` return or a
`PermissionError` falls through — retrying when attempts remain
(`rest` nonempty ⟺ `attempt < RETRY_COUNT - 1`) and otherwise counting
the archive as failed. -/
def retryLoop (keep : Bool) : List AttemptOutcome → RetryTrace
  | [] => ⟨0, 0, 0, false, false⟩
  | o :: rest =>
    match o with
    | .success => ⟨1, 0, 1, !keep, true⟩
    | .unexpectedErr => ⟨0, 0, 1, false, false⟩
    | .failure =>
      if rest.isEmpty then ⟨0, 1, 1, false, false⟩
      else
        let r := retryLoop keep rest
        ⟨r.processed, r.failed, r.attempts + 1, r.deletedOriginal, r.success⟩
    | .permErr =>
      if rest.isEmpty then ⟨0, 1, 1, false, false⟩
      else
        let r := retryLoop keep rest
        ⟨r.processed, r.failed, r.attempts + 1, r.deletedOriginal, r.success⟩

/-- Outcome of the orchestrator's pre-extraction quick check (source
lines 426–439): listing `infolist()` succeeds, raises
`RuntimeError`/`PasswordRequired` (needs a password), raises
`BadZipFile`/`BadRarFile` (corrupt, skipped without any attempt), or
raises something else (logged, processing proceeds). -/
inductive QuickCheck
  | ok
  | pwRequired
  | corrupt
  | otherWarn
deriving DecidableEq

/-- Paths as component lists; `pathlib` collapses single-dot components
when joining, so `directory / "."` is `directory` itself. -/
def pyJoin (dir : List String) (comp : String) : List String :=
  if comp == "." then dir else dir ++ [comp]

/-- `extract_to_path = directory / archive_path.stem` (source line 412). -/
def extract_to_path (directory : List String) (archiveName : String) : List String :=
  pyJoin directory (pyStem archiveName)

/-- Observable trace of the orchestrator's handling of one directory
entry that was classified as a supported archive. -/
structure OneTrace where
  processed : Nat
  failed : Nat
  attempts : Nat
  mkdirDest : Bool
  destPath : List String
  deletedOriginal : Bool
deriving DecidableEq

/-- `process_directory`'s per-archive body (source lines 407–487): the
destination subdirectory `directory / stem` is created
(`mkdir(exist_ok=True)`) before anything else; a corrupt quick check
counts the archive failed with no extraction attempt; a password-required
quick check runs `try_passwords` and counts the archive failed — again
with no attempt — when no truthy password results or no candidates were
supplied; otherwise the retry loop runs with the given attempt
outcomes. -/
def processOne (directory : List String) (archiveName : String)
    (quick : QuickCheck) (pwA : PwArchive) (passwords : Option (List String))
    (keep : Bool) (outcomes : List AttemptOutcome) : OneTrace :=
  let extractTo := extract_to_path directory archiveName
  match quick with
  | .corrupt => ⟨0, 1, 0, true, extractTo, false⟩
  | .pwRequired =>
    let working := try_passwords pwA passwords
    if !(pyTruthyStr working) && pyTruthyList passwords then
      ⟨0, 1, 0, true, extractTo, false⟩
    else if !(pyTruthyList passwords) then
      ⟨0, 1, 0, true, extractTo, false⟩
    else
      let r := retryLoop keep outcomes
      ⟨r.processed, r.failed, r.attempts, true, extractTo, r.deletedOriginal⟩
  | .ok =>
    let r := retryLoop keep outcomes
    ⟨r.processed, r.failed, r.attempts, true, extractTo, r.deletedOriginal⟩
  | .otherWarn =>
    let r := retryLoop keep outcomes
    ⟨r.processed, r.failed, r.attempts, true, extractTo, r.deletedOriginal⟩

/-- An empty filesystem state. -/
def fs0 : FS := ⟨0, []⟩

/-- A perfectly extractable 100-byte ZIP archive: used to show that the
disk-space preflight alone decides between success and failure. -/
def smallOkB : ArchiveBehavior :=
  { fmt := some ArchFormat.zip
    preflightTotal := some 100
    openExn := none
    setPasswordFails := false
    members := [⟨"x.txt", 100⟩]
    memberOk := fun _ => true
    extractAllOk := true
    moveOk := true
    verifyExn := none
    verifyOk := true }

/-- An archive whose `ArchiveOpener`/`infolist` raises `BadZipFile` in the
main extraction block (structural corruption discovered during the
extraction attempt, after an uneventful quick check). -/
def corruptDuringExtractB : ArchiveBehavior :=
  { fmt := some ArchFormat.zip
    preflightTotal := none
    openExn := some ExnKind.badArchive
    setPasswordFails := false
    members := []
    memberOk := fun _ => true
    extractAllOk := true
    moveOk := true
    verifyExn := none
    verifyOk := true }

/-- A password-resolver view that is never consulted on the paths where it
appears (quick check `ok`). -/
def pwDummy : PwArchive :=
  { fmt := some ArchFormat.zip
    openList := fun _ => .ok ["f.txt"]
    test := fun _ => .error PwExn.runtimeOrBadZip }

/-- The big member that extracts fine (20 MiB, above the progress
threshold). -/
def mBig : Member := ⟨"big.bin", 20971520⟩

/-- The member whose `extract` call fails. -/
def mFail : Member := ⟨"bad.bin", 1⟩

/-- A large archive (total size above `thresholdBytes`) with one member
that fails to extract: the per-member loop tolerates the failure and the
move stage still runs on the partial staging content. -/
def partialBigB : ArchiveBehavior :=
  { fmt := some ArchFormat.zip
    preflightTotal := some 20971521
    openExn := none
    setPasswordFails := false
    members := [mBig, mFail]
    memberOk := fun m => !(m.filename == "bad.bin")
    extractAllOk := true
    moveOk := true
    verifyExn := none
    verifyOk := false }

/-- A small archive whose `extractall` fails. -/
def smallFailB : ArchiveBehavior :=
  { fmt := some ArchFormat.zip
    preflightTotal := some 100
    openExn := none
    setPasswordFails := false
    members := [⟨"x.txt", 100⟩]
    memberOk := fun _ => true
    extractAllOk := false
    moveOk := true
    verifyExn := none
    verifyOk := true }

/-- A structurally corrupt archive as seen by the password resolver:
every open raises `BadZipFile` (corruption unrelated to the password). -/
def pwCorruptA : PwArchive :=
  { fmt := some ArchFormat.zip
    openList := fun _ => .error PwExn.runtimeOrBadZip
    test := fun _ => .error PwExn.runtimeOrBadZip }

/-- A healthy archive on which simply no candidate password works. -/
def pwNoneWorkA : PwArchive :=
  { fmt := some ArchFormat.zip
    openList := fun _ => .ok ["f.txt"]
    test := fun _ => .error PwExn.runtimeOrBadZip }

/-- An archive on which exactly the candidate "correct" unlocks. -/
def pwMonotonicA : PwArchive :=
  { fmt := some ArchFormat.zip
    openList := fun _ => .ok ["f.txt"]
    test := fun p => if p == "correct" then .ok () else .error PwExn.runtimeOrBadZip }

/-- An archive whose entry list is empty (any candidate is accepted). -/
def pwEmptyEntriesA : PwArchive :=
  { fmt := some ArchFormat.zip
    openList := fun _ => .ok []
    test := fun _ => .error PwExn.runtimeOrBadZip }

/-- A password-protected archive as seen by the integrity validator:
the test raises `PasswordRequired` whatever password is supplied. -/
def valPwRequiredA : ValArchive :=
  { fmt := some ArchFormat.rar
    run := fun _ => ValOutcome.raisesPasswordRequired }

/-- A colliding item for the rename-policy witness. -/
def renameIt : MoveItem := ⟨"d", "file.txt", false, false, false⟩

/-- Destination contents for the rename-policy witness: the original name
and the first numbered variant are taken. -/
def renameFs : List String := ["d/file.txt", "d/file_1.txt"]

/-- A colliding item all of whose 999 numbered variants are taken. -/
def exhaustedIt : MoveItem := ⟨"d", "f.txt", false, false, false⟩

/-- Destination contents on which `exhaustedIt` exhausts the rename
counter: `f.txt` and every `f_1.txt` … `f_999.txt` exist. -/
def exhaustedFs : List String :=
  pathOf "d" "f.txt" ::
    (List.range 1000).map (fun n => pathOf "d" ("f_" ++ toString n ++ ".txt"))

/-! Helper lemmas (shared across claims). -/

/-- Generic `find?` fact: a member satisfying the predicate, which nothing
else in the list satisfies, is the `find?` result. -/
theorem find?_eq_some_of_unique {α : Type} (p : α → Bool) (x : α) :
    ∀ l : List α, x ∈ l → p x = true → (∀ y ∈ l, p y = true → y = x) →
      l.find? p = some x := by
  intro l
  induction l with
  | nil => intro h; cases h
  | cons a l ih =>
    intro hmem hpx huniq
    by_cases hpa : p a = true
    · have : a = x := huniq a (List.mem_cons_self a l) hpa
      subst this
      exact List.find?_cons_of_pos _ hpa
    · have hax : x ∈ l := by
        rcases List.mem_cons.mp hmem with h | h
        · subst h; exact absurd hpx hpa
        · exact h
      rw [List.find?_cons_of_neg _ (by simpa using hpa)]
      exact ih hax hpx (fun y hy => huniq y (List.mem_cons_of_mem _ hy))

/-- The candidate loop returns exactly the first candidate `accepts`
accepts. -/
theorem tryLoop_eq_find? (a : PwArchive) :
    ∀ ps : List String, tryLoop a ps = ps.find? (accepts a) := by
  intro ps
  induction ps with
  | nil => rfl
  | cons p rest ih =>
    show tryLoop a (p :: rest) = _
    rw [tryLoop]
    rcases ho : a.openList p with e | fileList
    · rw [List.find?_cons_of_neg _ (by simp [accepts, ho]), ih]
    · by_cases he : fileList.isEmpty
      · simp only [he, if_true]
        rw [List.find?_cons_of_pos _ (by simp [accepts, ho, he])]
      · simp only [he, if_false]
        rcases ht : a.test p with e | u
        · rw [List.find?_cons_of_neg _ (by simp [accepts, ho, ht, he]), ih]
          rfl
        · rw [List.find?_cons_of_pos _ (by simp [accepts, ho, ht])]
          rfl

/-- When every open attempt raises, the loop walks the whole candidate
list and returns `none`. -/
theorem tryLoop_all_error (a : PwArchive) (e : PwExn)
    (hcorrupt : ∀ p, a.openList p = .error e) :
    ∀ ps : List String, tryLoop a ps = none ∧ tryLoopProbes a ps = ps.length := by
  intro ps
  induction ps with
  | nil => exact ⟨rfl, rfl⟩
  | cons p rest ih =>
    constructor
    · show tryLoop a (p :: rest) = none
      rw [tryLoop, hcorrupt p]
      exact ih.1
    · show tryLoopProbes a (p :: rest) = _
      rw [tryLoopProbes, hcorrupt p]
      simp [ih.2, Nat.add_comm]

/-- C4 (counterexample): on a structurally corrupt archive (every open
raises `BadZipFile`) the resolver does not stop at the first corruption
error — it probes both candidates — and returns `none`, the very value
it returns on a healthy archive for which no candidate works, so no
distinct corruption failure is propagated. -/
theorem resolver_corruption_not_distinct_cex :
    try_passwords pwCorruptA (some ["a", "b"]) = none
    ∧ try_passwords pwNoneWorkA (some ["a", "b"]) = none
    ∧ tryLoopProbes pwCorruptA ["a", "b"] = 2 :=
  ⟨rfl, rfl, rfl⟩

/-- C4 (amended): when probing hits structural-corruption errors, the
resolver treats each like a wrong password: it continues through every
remaining candidate and finally returns `none`, indistinguishable from
the no-working-password outcome. -/
theorem resolver_treats_corruption_as_wrong_password
    (a : PwArchive) (f : ArchFormat) (hf : a.fmt = some f)
    (e : PwExn) (hcorrupt : ∀ p, a.openList p = .error e)
    (ps : List String) (hne : ps.isEmpty = false) :
    try_passwords a (some ps) = none ∧ tryLoopProbes a ps = ps.length := by
  refine ⟨?_, (tryLoop_all_error a e hcorrupt ps).2⟩
  show try_passwords a (some ps) = none
  rw [try_passwords]
  simp only [hne, if_false, hf]
  exact (tryLoop_all_error a e hcorrupt ps).1

/-- C4 (witness). -/
theorem resolver_treats_corruption_as_wrong_password_witness :
    try_passwords pwCorruptA (some ["x", "y", "z"]) = none
    ∧ tryLoopProbes pwCorruptA ["x", "y", "z"] = 3 :=
  resolver_treats_corruption_as_wrong_password pwCorruptA ArchFormat.zip rfl
    PwExn.runtimeOrBadZip (fun _ => rfl) ["x", "y", "z"] rfl

/-- C5 (counterexample): the integrity validator's result type is a plain
boolean, so "password required before validity can be determined" is not
a third outcome: on an archive whose check raises `PasswordRequired` the
validator reports plain *valid* (`true`) when called without a password
and plain *invalid* (`false`) when called with one. -/
theorem validator_password_required_not_third_outcome_cex :
    is_valid_archive valPwRequiredA none = true
    ∧ is_valid_archive valPwRequiredA (some "x") = false :=
  ⟨rfl, rfl⟩

/-- C5 (amended): the validator returns only a boolean; when the check
raises `PasswordRequired` it returns `not password` — `true` if no
(truthy) password was supplied and `false` otherwise — with no
distinguished third status. -/
theorem validator_password_required_boolean
    (a : ValArchive) (f : ArchFormat) (hf : a.fmt = some f)
    (pw : Option String) (hrun : a.run pw = ValOutcome.raisesPasswordRequired) :
    is_valid_archive a pw = !(pyTruthyStr pw) := by
  rw [is_valid_archive, hf, hrun]

/-- C5 (witness). -/
theorem validator_password_required_boolean_witness :
    is_valid_archive valPwRequiredA none = !(pyTruthyStr none) :=
  validator_password_required_boolean valPwRequiredA ArchFormat.rar rfl none rfl

/-- C6: on a supported archive with a non-empty entry list, given a
candidate list containing the one password that passes the probe while
every other candidate fails, `try_passwords` returns exactly that
password; in general it returns the first accepted candidate in list
order (`find?` of the acceptance test), `none` when the list is absent,
empty or accepts no candidate, and the first candidate outright when the
archive's entry list is empty. -/
theorem try_passwords_monotonic_first_accepted
    (a : PwArchive) (f : ArchFormat) (hf : a.fmt = some f)
    (es : List String) (hes : es.isEmpty = false)
    (hopen : ∀ p, a.openList p = .ok es)
    (truePwd : String) (ps : List String) (hmem : truePwd ∈ ps)
    (htrue : a.test truePwd = .ok ())
    (hfail : ∀ p, p ≠ truePwd → ∃ e, a.test p = .error e) :
    try_passwords a (some ps) = some truePwd
    ∧ (∀ rs, try_passwords a (some rs) = rs.find? (accepts a))
    ∧ try_passwords a none = none
    ∧ try_passwords a (some []) = none
    ∧ (∀ rs, (∀ r ∈ rs, accepts a r = false) → try_passwords a (some rs) = none)
    ∧ (∀ (b : PwArchive) (g : ArchFormat), b.fmt = some g →
        ∀ q qs, b.openList q = .ok [] → try_passwords b (some (q :: qs)) = some q) := by
  have hgen : ∀ rs, try_passwords a (some rs) = rs.find? (accepts a) := by
    intro rs
    cases rs with
    | nil => rfl
    | cons r rest =>
      show try_passwords a (some (r :: rest)) = _
      rw [try_passwords]
      simp only [List.isEmpty_cons, if_false, hf, Bool.false_eq_true]
      exact tryLoop_eq_find? a (r :: rest)
  have haccept : accepts a truePwd = true := by
    rw [accepts, hopen truePwd, htrue]
    simp [hes]
  have huniq : ∀ y ∈ ps, accepts a y = true → y = truePwd := by
    intro y _ hy
    by_contra hne
    rcases hfail y hne with ⟨e, he⟩
    rw [accepts, hopen y, he] at hy
    simp [hes] at hy
  refine ⟨?_, hgen, rfl, rfl, ?_, ?_⟩
  · rw [hgen ps]
    exact find?_eq_some_of_unique (accepts a) truePwd ps hmem haccept huniq
  · intro rs hall
    rw [hgen rs]
    exact List.find?_eq_none.mpr (fun x hx => by simp [hall x hx])
  · intro b g hg q qs hbq
    show try_passwords b (some (q :: qs)) = some q
    rw [try_passwords]
    simp only [List.isEmpty_cons, if_false, hg, Bool.false_eq_true]
    show tryLoop b (q :: qs) = some q
    rw [tryLoop, hbq]
    rfl

/-- C6 (witness): candidate list `["wrong1", "correct", "wrong2"]` on an
archive unlocked exactly by "correct". -/
theorem try_passwords_monotonic_first_accepted_witness :
    try_passwords pwMonotonicA (some ["wrong1", "correct", "wrong2"]) = some "correct"
    ∧ try_passwords pwEmptyEntriesA (some ["first", "second"]) = some "first" := by
  have h := try_passwords_monotonic_first_accepted pwMonotonicA ArchFormat.zip rfl
    ["f.txt"] rfl (fun _ => rfl) "correct" ["wrong1", "correct", "wrong2"]
    (by simp) rfl
    (fun p hp => ⟨PwExn.runtimeOrBadZip, by simp [pwMonotonicA, hp]⟩)
  exact ⟨h.1, h.2.2.2.2.2 pwEmptyEntriesA ArchFormat.zip rfl "first" ["second"] rfl⟩

/-- Unfolding step of the retry loop: a failed attempt with attempts
still remaining recurses, adding one to the attempt count. -/
theorem retryLoop_failure_step (keep : Bool) (rest : List AttemptOutcome)
    (h : rest.isEmpty = false) :
    retryLoop keep (AttemptOutcome.failure :: rest)
      = ⟨(retryLoop keep rest).processed, (retryLoop keep rest).failed,
         (retryLoop keep rest).attempts + 1, (retryLoop keep rest).deletedOriginal,
         (retryLoop keep rest).success⟩ := by
  cases rest with
  | nil => simp at h
  | cons a l => rfl

/-- Unfolding step of the retry loop: a `PermissionError` with attempts
still remaining recurses, adding one to the attempt count. -/
theorem retryLoop_permErr_step (keep : Bool) (rest : List AttemptOutcome)
    (h : rest.isEmpty = false) :
    retryLoop keep (AttemptOutcome.permErr :: rest)
      = ⟨(retryLoop keep rest).processed, (retryLoop keep rest).failed,
         (retryLoop keep rest).attempts + 1, (retryLoop keep rest).deletedOriginal,
         (retryLoop keep rest).success⟩ := by
  cases rest with
  | nil => simp at h
  | cons a l => rfl

/-- The retry loop when every attempt returns `False`: all attempts are
used and the archive is finally counted as failed once. -/
theorem retryLoop_all_failure (keep : Bool) :
    ∀ outs : List AttemptOutcome, outs ≠ [] →
      (∀ o ∈ outs, o = AttemptOutcome.failure) →
      retryLoop keep outs = ⟨0, 1, outs.length, false, false⟩ := by
  intro outs
  induction outs with
  | nil => intro h; exact absurd rfl h
  | cons o rest ih =>
    intro _ hall
    have ho : o = AttemptOutcome.failure := hall o (List.mem_cons_self o rest)
    subst ho
    cases rest with
    | nil => rfl
    | cons o2 rest2 =>
      have hr := ih (by simp) (fun x hx => hall x (List.mem_cons_of_mem _ hx))
      rw [retryLoop_failure_step keep (o2 :: rest2) rfl, hr]
      simp

/-- The retry loop when an unexpected exception follows a prefix of
retryable failures: the loop breaks right there and neither counter is
touched. -/
theorem retryLoop_unexpected (keep : Bool) :
    ∀ pre rest : List AttemptOutcome,
      (∀ o ∈ pre, o = AttemptOutcome.failure ∨ o = AttemptOutcome.permErr) →
      retryLoop keep (pre ++ AttemptOutcome.unexpectedErr :: rest)
        = ⟨0, 0, pre.length + 1, false, false⟩ := by
  intro pre
  induction pre with
  | nil => intro rest _; rfl
  | cons o pre' ih =>
    intro rest hall
    have hne : (pre' ++ AttemptOutcome.unexpectedErr :: rest).isEmpty = false := by
      simp [List.isEmpty_iff]
    have hr := ih rest (fun x hx => hall x (List.mem_cons_of_mem _ hx))
    rcases hall o (List.mem_cons_self o pre') with ho | ho <;> subst ho
    · rw [List.cons_append, retryLoop_failure_step keep _ hne, hr]
      simp
    · rw [List.cons_append, retryLoop_permErr_step keep _ hne, hr]
      simp

/-- C9: if some extraction attempt raises an unexpected exception (not a
`PermissionError`) after earlier attempts that merely failed, the
orchestrator breaks out of the retry loop at that attempt, and the
archive is counted in neither `processed_count` nor `failed_count`. -/
theorem unexpected_error_stops_retries_uncounted
    (directory : List String) (archiveName : String) (pwA : PwArchive)
    (passwords : Option (List String)) (keep : Bool)
    (pre rest : List AttemptOutcome)
    (hpre : ∀ o ∈ pre, o = AttemptOutcome.failure ∨ o = AttemptOutcome.permErr) :
    (processOne directory archiveName QuickCheck.ok pwA passwords keep
        (pre ++ AttemptOutcome.unexpectedErr :: rest)).processed = 0
    ∧ (processOne directory archiveName QuickCheck.ok pwA passwords keep
        (pre ++ AttemptOutcome.unexpectedErr :: rest)).failed = 0
    ∧ (processOne directory archiveName QuickCheck.ok pwA passwords keep
        (pre ++ AttemptOutcome.unexpectedErr :: rest)).attempts = pre.length + 1 := by
  have h := retryLoop_unexpected keep pre rest hpre
  exact ⟨by simp [processOne, h], by simp [processOne, h], by simp [processOne, h]⟩

/-- C9 (witness): first attempt fails, second raises unexpectedly with a
third attempt still available — the loop stops after two calls and the
summary counts the archive nowhere. -/
theorem unexpected_error_stops_retries_uncounted_witness :
    (processOne ["d"] "a.zip" QuickCheck.ok pwDummy none true
        ([AttemptOutcome.failure] ++ AttemptOutcome.unexpectedErr
          :: [AttemptOutcome.failure])).processed = 0
    ∧ (processOne ["d"] "a.zip" QuickCheck.ok pwDummy none true
        ([AttemptOutcome.failure] ++ AttemptOutcome.unexpectedErr
          :: [AttemptOutcome.failure])).failed = 0
    ∧ (processOne ["d"] "a.zip" QuickCheck.ok pwDummy none true
        ([AttemptOutcome.failure] ++ AttemptOutcome.unexpectedErr
          :: [AttemptOutcome.failure])).attempts = 2 :=
  unexpected_error_stops_retries_uncounted ["d"] "a.zip" pwDummy none true
    [AttemptOutcome.failure] [AttemptOutcome.failure] (by simp)

/-- C2 (counterexample): an archive whose corruption surfaces only when
extraction opens it (the quick check having passed) makes
`extract_archive` return plain `False`; the orchestrator cannot tell this
deterministic failure apart from a transient one and performs all three
attempts before counting the archive failed — the corruption failure *is*
retried. -/
theorem corruption_during_extraction_is_retried_cex :
    (extract_archive corruptDuringExtractB none 1000000 fs0).1.out = ExtOut.ret false
    ∧ (processOne ["d"] "c.zip" QuickCheck.ok pwDummy none true
        (List.replicate RETRY_COUNT
          (outcomeOf (extract_archive corruptDuringExtractB none 1000000 fs0).1))).attempts
        = 3
    ∧ (processOne ["d"] "c.zip" QuickCheck.ok pwDummy none true
        (List.replicate RETRY_COUNT
          (outcomeOf (extract_archive corruptDuringExtractB none 1000000 fs0).1))).failed
        = 1 :=
  ⟨rfl, rfl, rfl⟩

/-- C2 (amended): deterministic failures are skipped without any
extraction attempt only when they surface *before* the retry loop — a
corrupt quick check or a failed password resolution counts the archive
failed with zero attempts; but an extraction-time failure reaches the
orchestrator as a bare `False`, which is retried up to all
`RETRY_COUNT` attempts even when its cause is deterministic corruption. -/
theorem deterministic_failure_retry_split
    (directory : List String) (archiveName : String) (pwA : PwArchive)
    (passwords : Option (List String)) (keep : Bool)
    (outcomes : List AttemptOutcome) :
    ((processOne directory archiveName QuickCheck.corrupt pwA passwords keep
        outcomes).attempts = 0
      ∧ (processOne directory archiveName QuickCheck.corrupt pwA passwords keep
          outcomes).failed = 1)
    ∧ (pyTruthyStr (try_passwords pwA passwords) = false →
        (processOne directory archiveName QuickCheck.pwRequired pwA passwords keep
            outcomes).attempts = 0
        ∧ (processOne directory archiveName QuickCheck.pwRequired pwA passwords keep
            outcomes).failed = 1)
    ∧ (outcomes ≠ [] → (∀ o ∈ outcomes, o = AttemptOutcome.failure) →
        (processOne directory archiveName QuickCheck.ok pwA passwords keep
            outcomes).attempts = outcomes.length
        ∧ (processOne directory archiveName QuickCheck.ok pwA passwords keep
            outcomes).failed = 1) := by
  refine ⟨⟨rfl, rfl⟩, ?_, ?_⟩
  · intro hw
    cases hp : pyTruthyList passwords with
    | true => exact ⟨by simp [processOne, hw, hp], by simp [processOne, hw, hp]⟩
    | false => exact ⟨by simp [processOne, hw, hp], by simp [processOne, hw, hp]⟩
  · intro hne hall
    have h := retryLoop_all_failure keep outcomes hne hall
    exact ⟨by simp [processOne, h], by simp [processOne, h]⟩

/-- C2 (witness). -/
theorem deterministic_failure_retry_split_witness :
    (processOne ["d"] "c.rar" QuickCheck.corrupt pwDummy none true []).attempts = 0
    ∧ (processOne ["d"] "c.rar" QuickCheck.pwRequired pwDummy none true []).attempts = 0
    ∧ (processOne ["d"] "c.rar" QuickCheck.ok pwDummy none true
        [AttemptOutcome.failure, AttemptOutcome.failure, AttemptOutcome.failure]).attempts
        = 3 := by
  have h1 := deterministic_failure_retry_split ["d"] "c.rar" pwDummy none true []
  have h2 := deterministic_failure_retry_split ["d"] "c.rar" pwDummy none true
    [AttemptOutcome.failure, AttemptOutcome.failure, AttemptOutcome.failure]
  exact ⟨h1.1.1, (h1.2.1 rfl).1, (h2.2.2 (by simp) (by simp)).1⟩

/-- C1 (counterexample): a perfectly extractable 100-byte archive
succeeds when 1000000 bytes are free, yet with 50 free bytes the
preflight alone makes `extract_archive` return failure — extraction is
never reached and no file is moved.  The preflight is a hard gate, not a
soft warning. -/
theorem preflight_insufficient_space_blocks_cex :
    (extract_archive smallOkB none 50 fs0).1.out = ExtOut.ret false
    ∧ (extract_archive smallOkB none 50 fs0).1.extractionRan = false
    ∧ (extract_archive smallOkB none 50 fs0).1.moveCalled = false
    ∧ (extract_archive smallOkB none 1000000 fs0).1.out = ExtOut.ret true :=
  ⟨rfl, rfl, rfl, rfl⟩

/-- C1 (amended): when the disk-space preflight can compute the required
bytes (entry-size sum with the 10% margin) and they exceed the free
bytes, `extract_archive` logs and returns failure without extracting or
moving anything; the soft, proceed-anyway path applies only when the
space requirement cannot be computed at all. -/
theorem preflight_insufficient_space_hard_gate
    (b : ArchiveBehavior) (pwd : Option String) (freeBytes : Nat) (fs : FS)
    (f : ArchFormat) (hf : b.fmt = some f) :
    (∀ t, b.preflightTotal = some t → requiredSize t > freeBytes →
      (extract_archive b pwd freeBytes fs).1.out = ExtOut.ret false
      ∧ (extract_archive b pwd freeBytes fs).1.extractionRan = false
      ∧ (extract_archive b pwd freeBytes fs).1.moveCalled = false)
    ∧ (b.preflightTotal = none →
      (extract_archive b pwd freeBytes fs).1.preflightBlocked = false) := by
  constructor
  · intro t ht hgt
    have : (extract_archive b pwd freeBytes fs).1
        = ⟨ExtOut.ret false, true, false, [], false⟩ := by
      rw [extract_archive, hf]
      simp [ht, hgt]
    rw [this]
    exact ⟨rfl, rfl, rfl⟩
  · intro ht
    rw [extract_archive, hf]
    simp only [ht]
    rfl

/-- C1 (witness). -/
theorem preflight_insufficient_space_hard_gate_witness :
    (extract_archive smallOkB none 50 fs0).1.out = ExtOut.ret false
    ∧ (extract_archive smallOkB none 50 fs0).1.extractionRan = false :=
  have h := (preflight_insufficient_space_hard_gate smallOkB none 50 fs0
    ArchFormat.zip rfl).1 100 rfl (by decide)
  ⟨h.1, h.2.1⟩

/-- C3 (counterexample): a large archive (above the progress threshold)
with one member whose extraction fails: the per-member loop tolerates the
failure, so the move stage still runs and the destination receives the
partially-extracted staging content (only `mBig`, not `mFail`). -/
theorem partial_extraction_still_moved_cex :
    partialBigB.memberOk mFail = false
    ∧ mFail ∈ partialBigB.members
    ∧ totalSize partialBigB.members > thresholdBytes
    ∧ (extract_archive partialBigB none 100000000 fs0).1.moveCalled = true
    ∧ (extract_archive partialBigB none 100000000 fs0).1.staged = [mBig] := by
  refine ⟨rfl, ?_, by decide, rfl, rfl⟩
  simp [partialBigB]

/-- C3 (amended): only the small-archive path (total size at most the
progress threshold) guards reconciliation behind complete extraction —
a failed `extractall` returns failure with no move; on the large-archive
path, per-member extraction failures are logged and tolerated, and the
successfully staged subset is still reconciled into the destination. -/
theorem staging_reconcile_behavior
    (b : ArchiveBehavior) (pwd : Option String) (freeBytes : Nat) (fs : FS)
    (f : ArchFormat) (hf : b.fmt = some f)
    (hpf : ∀ t, b.preflightTotal = some t → ¬ requiredSize t > freeBytes)
    (hopen : b.openExn = none)
    (hpw : (pyTruthyStr pwd && b.setPasswordFails) = false) :
    (totalSize b.members ≤ thresholdBytes → b.extractAllOk = false →
      (extract_archive b pwd freeBytes fs).1.out = ExtOut.ret false
      ∧ (extract_archive b pwd freeBytes fs).1.moveCalled = false)
    ∧ (totalSize b.members > thresholdBytes →
      (extract_archive b pwd freeBytes fs).1.moveCalled = true
      ∧ (extract_archive b pwd freeBytes fs).1.staged = b.members.filter b.memberOk) := by
  have hblocked :
      (match b.preflightTotal with
        | some t => decide (requiredSize t > freeBytes)
        | none => false) = false := by
    cases ht : b.preflightTotal with
    | none => rfl
    | some t => simpa using hpf t ht
  constructor
  · intro hsmall hea
    have hbody : extractTryBody b pwd = ⟨.ok false, true, [], false⟩ := by
      rw [extractTryBody, hopen]
      simp [hpw, Nat.not_lt.mpr hsmall, hea]
    rw [extract_archive, hf]
    simp only [hblocked, if_false, hbody]
    exact ⟨rfl, rfl⟩
  · intro hbig
    have hbody : extractTryBody b pwd = afterStaging b (b.members.filter b.memberOk) := by
      rw [extractTryBody, hopen]
      simp [hpw, hbig]
    have hms : ∀ s, (afterStaging b s).moveCalled = true ∧ (afterStaging b s).staged = s := by
      intro s
      rw [afterStaging]
      cases b.verifyExn <;> exact ⟨rfl, rfl⟩
    rw [extract_archive, hf]
    simp only [hblocked, if_false, hbody]
    exact ⟨(hms _).1, (hms _).2⟩

/-- C3 (witness): the small-archive guard at a concrete input. -/
theorem staging_reconcile_behavior_witness :
    (extract_archive smallFailB none 1000000 fs0).1.out = ExtOut.ret false
    ∧ (extract_archive smallFailB none 1000000 fs0).1.moveCalled = false :=
  (staging_reconcile_behavior smallFailB none 1000000 fs0 ArchFormat.zip rfl
      (by intro t ht; cases ht; decide) rfl rfl).1 (by decide) rfl

/-- C8: whatever the archive behaviour, password, free space and prior
filesystem state — including every failure return and a fatal exception
propagating out of the pipeline — the staging directory created by
`extract_archive` is gone when it returns: the final staging set equals
the initial one. -/
theorem staging_dir_always_removed
    (b : ArchiveBehavior) (pwd : Option String) (freeBytes : Nat) (fs : FS) :
    ((extract_archive b pwd freeBytes fs).2).staging = fs.staging := by
  rw [extract_archive]
  cases b.fmt with
  | none => rfl
  | some f =>
    cases hb : (match b.preflightTotal with
      | some t => decide (requiredSize t > freeBytes)
      | none => false) with
    | true => simp [hb]
    | false => simp [hb, List.erase_cons_head]

/-- The destination subdirectory and its `mkdir` happen identically on
every branch of the per-archive body. -/
theorem processOne_destPath (directory : List String) (archiveName : String)
    (quick : QuickCheck) (pwA : PwArchive) (passwords : Option (List String))
    (keep : Bool) (outcomes : List AttemptOutcome) :
    (processOne directory archiveName quick pwA passwords keep outcomes).destPath
      = extract_to_path directory archiveName
    ∧ (processOne directory archiveName quick pwA passwords keep outcomes).mkdirDest
      = true := by
  cases quick with
  | corrupt => exact ⟨rfl, rfl⟩
  | pwRequired =>
    simp only [processOne]
    constructor
    · split
      · rfl
      · split <;> rfl
    · split
      · rfl
      · split <;> rfl
  | ok => exact ⟨rfl, rfl⟩
  | otherWarn => exact ⟨rfl, rfl⟩

/-- C10 (counterexample): the file `..zip` *is* classified as a supported
ZIP archive (its `pathlib` suffix is `.zip`), but its stem is `.`, so the
computed destination `directory / '.'` is the target directory itself:
this archive's files are extracted directly into the target directory,
not into a per-archive subdirectory. -/
theorem dest_subdir_dotzip_cex :
    get_archive_opener "..zip" true = some ArchFormat.zip
    ∧ pyStem "..zip" = "."
    ∧ extract_to_path ["target"] "..zip" = ["target"]
    ∧ (processOne ["target"] "..zip" QuickCheck.ok pwDummy none true []).destPath
      = ["target"] := by
  refine ⟨by decide, by decide, by decide, rfl⟩

/-- C10 (amended): for every supported archive whose filename stem is not
the degenerate `.`, the orchestrator extracts into the subdirectory of
the target directory named by the stem (filename without extension) — a
path distinct from the target directory — creating it
(`mkdir(exist_ok=True)`) before any attempt; the sole exception is a
pathological name like `..zip`, whose stem `.` makes the destination the
target directory itself. -/
theorem dest_subdir_named_after_stem
    (directory : List String) (archiveName : String) (f : ArchFormat) (rarOk : Bool)
    (_hsup : get_archive_opener archiveName rarOk = some f)
    (hstem : pyStem archiveName ≠ ".") :
    extract_to_path directory archiveName = directory ++ [pyStem archiveName]
    ∧ extract_to_path directory archiveName ≠ directory
    ∧ (∀ quick pwA passwords keep outcomes,
        (processOne directory archiveName quick pwA passwords keep outcomes).destPath
          = directory ++ [pyStem archiveName]
        ∧ (processOne directory archiveName quick pwA passwords keep outcomes).mkdirDest
          = true) := by
  have hjoin : extract_to_path directory archiveName = directory ++ [pyStem archiveName] := by
    rw [extract_to_path, pyJoin]
    simp [hstem]
  refine ⟨hjoin, ?_, ?_⟩
  · rw [hjoin]
    intro h
    have := congrArg List.length h
    simp at this
  · intro quick pwA passwords keep outcomes
    have h := processOne_destPath directory archiveName quick pwA passwords keep outcomes
    exact ⟨h.1.trans hjoin, h.2⟩

/-- C10 (witness). -/
theorem dest_subdir_named_after_stem_witness :
    extract_to_path ["target"] "photos.zip" = ["target", "photos"]
    ∧ extract_to_path ["target"] "photos.zip" ≠ ["target"] :=
  have h := dest_subdir_named_after_stem ["target"] "photos.zip" ArchFormat.zip true
    (by decide) (by decide)
  ⟨h.1, h.2.1⟩

/-- Soundness of the rename loop's `some` result: the returned name is
the numbered variant with the *smallest* counter value not in use at
decision time, the counter staying within `[counter, 999]`. -/
theorem renameSearchAux_some (ex : String → Bool) (base ext : String) :
    ∀ fuel counter nm, counter + fuel = 1000 →
      renameSearchAux ex base ext counter fuel = some nm →
      ∃ n, counter ≤ n ∧ n ≤ 999
        ∧ nm = base ++ "_" ++ toString n ++ ext
        ∧ ex nm = false
        ∧ ∀ m, counter ≤ m → m < n → ex (base ++ "_" ++ toString m ++ ext) = true := by
  intro fuel
  induction fuel with
  | zero =>
    intro counter nm _ h
    simp [renameSearchAux] at h
  | succ fuel ih =>
    intro counter nm hsum h
    simp only [renameSearchAux] at h
    by_cases hex : ex (base ++ "_" ++ toString counter ++ ext) = false
    · rw [if_pos hex] at h
      injection h with h2
      subst h2
      exact ⟨counter, Nat.le_refl _, by omega, rfl, hex,
        fun m hm1 hm2 => absurd hm2 (Nat.not_lt.mpr hm1)⟩
    · rw [if_neg hex] at h
      by_cases hc : counter + 1 > 999
      · rw [if_pos hc] at h
        exact absurd h (by simp)
      · rw [if_neg hc] at h
        rcases ih (counter + 1) nm (by omega) h with ⟨n, hn1, hn2, hn3, hn4, hn5⟩
        refine ⟨n, by omega, hn2, hn3, hn4, ?_⟩
        intro m hm1 hm2
        rcases Nat.eq_or_lt_of_le hm1 with heq | hlt
        · cases hb : ex (base ++ "_" ++ toString counter ++ ext) with
          | false => exact absurd hb hex
          | true => exact heq ▸ hb
        · exact hn5 m hlt hm2

/-- When every numbered variant up to 999 is in use, the rename loop
gives up and returns `none`. -/
theorem renameSearchAux_none_of_all (ex : String → Bool) (base ext : String) :
    ∀ fuel counter, counter + fuel = 1000 →
      (∀ m, counter ≤ m → m ≤ 999 → ex (base ++ "_" ++ toString m ++ ext) = true) →
      renameSearchAux ex base ext counter fuel = none := by
  intro fuel
  induction fuel with
  | zero => intro counter _ _; rfl
  | succ fuel ih =>
    intro counter hsum hall
    have hex : ex (base ++ "_" ++ toString counter ++ ext) = true :=
      hall counter (Nat.le_refl _) (by omega)
    simp only [renameSearchAux]
    rw [if_neg (by simp [hex])]
    by_cases hc : counter + 1 > 999
    · rw [if_pos hc]
    · rw [if_neg hc]
      exact ih (counter + 1) (by omega) (fun m hm1 hm2 => hall m (by omega) hm2)

/-- The reconciliation walk never aborts: every walked item is handled,
whatever happens to the individual items. -/
theorem move_files_processes_all (strat : Collision) :
    ∀ (items : List MoveItem) (fsPaths : List String),
      (move_files strat items fsPaths).itemsProcessed = items.length := by
  intro items
  induction items with
  | nil => intro fsPaths; rfl
  | cons it rest ih =>
    intro fsPaths
    simp only [move_files]
    simp [ih]

/-- Every numbered variant `f_1.txt` … `f_999.txt` is present in
`exhaustedFs`. -/
theorem exhaustedFs_contains (m : Nat) (h1 : 1 ≤ m) (h2 : m ≤ 999) :
    exhaustedFs.contains (pathOf "d" ("f_" ++ toString m ++ ".txt")) = true := by
  have hmem : pathOf "d" ("f_" ++ toString m ++ ".txt") ∈ exhaustedFs := by
    rw [exhaustedFs]
    refine List.mem_cons_of_mem _ ?_
    refine List.mem_map_of_mem _ ?_
    simp only [List.mem_range]
    omega
  exact List.elem_eq_true_of_mem hmem

/-- On `exhaustedFs` the rename loop for `f.txt` exhausts all 999
attempts. -/
theorem exhausted_renameSearch_none :
    renameSearch (fun s => exhaustedFs.contains (pathOf "d" s))
      (splitBaseExt "f.txt").1 (splitBaseExt "f.txt").2 = none := by
  rw [renameSearch]
  refine renameSearchAux_none_of_all _ _ _ 999 1 rfl ?_
  intro m hm1 hm2
  exact exhaustedFs_contains m hm1 hm2

/-- Unfolding of the walk at a colliding file item under policy `rename`
when the loop finds a fresh name `nm`: the item is moved to
`parent/nm` and the walk continues on a filesystem extended by it. -/
theorem move_files_rename_step_some
    (it : MoveItem) (rest : List MoveItem) (fsPaths : List String) (nm : String)
    (hexists : fsPaths.contains (pathOf it.parent it.name) = true)
    (hnd : it.bothDirs = false)
    (hmf : it.moveFails = false)
    (hsome : renameSearch (fun s => fsPaths.contains (pathOf it.parent s))
        (splitBaseExt it.name).1 (splitBaseExt it.name).2 = some nm) :
    move_files Collision.rename (it :: rest) fsPaths
      = ⟨(move_files Collision.rename rest (pathOf it.parent nm :: fsPaths)).all_moved,
         (move_files Collision.rename rest (pathOf it.parent nm :: fsPaths)).fsPaths,
         (it.name, pathOf it.parent nm)
           :: (move_files Collision.rename rest (pathOf it.parent nm :: fsPaths)).performed,
         (move_files Collision.rename rest
             (pathOf it.parent nm :: fsPaths)).itemsProcessed + 1⟩ := by
  have hstep : moveStep Collision.rename it fsPaths
      = (true, pathOf it.parent nm :: fsPaths, some (it.name, pathOf it.parent nm)) := by
    rw [moveStep]
    simp only [hexists, hnd, hsome, doMove, hmf]
    rfl
  simp [move_files, hstep]

/-- Unfolding of the walk at a colliding file item under policy `rename`
when all 999 numbered names are taken: the item is skipped, `all_moved`
is cleared, and the walk continues on the unchanged filesystem. -/
theorem move_files_rename_step_none
    (it : MoveItem) (rest : List MoveItem) (fsPaths : List String)
    (hexists : fsPaths.contains (pathOf it.parent it.name) = true)
    (hnd : it.bothDirs = false)
    (hnone : renameSearch (fun s => fsPaths.contains (pathOf it.parent s))
        (splitBaseExt it.name).1 (splitBaseExt it.name).2 = none) :
    move_files Collision.rename (it :: rest) fsPaths
      = ⟨false, (move_files Collision.rename rest fsPaths).fsPaths,
         (move_files Collision.rename rest fsPaths).performed,
         (move_files Collision.rename rest fsPaths).itemsProcessed + 1⟩ := by
  have hstep : moveStep Collision.rename it fsPaths = (false, fsPaths, none) := by
    rw [moveStep]
    simp only [hexists, hnd, hnone]
    rfl
  simp [move_files, hstep]

/-- C7: under collision policy `rename`, for a staged file item whose
destination already exists, when the loop finds a name it is
`base_N.ext` for the smallest `N ≥ 1` (within the 999-attempt cap)
unused at decision time, and the item is moved there; when all 999
numbered names are taken the single item is reported failed
(`all_moved = false`) and skipped, while the walk still processes every
remaining item. -/
theorem rename_collision_smallest_suffix
    (it : MoveItem) (rest : List MoveItem) (fsPaths : List String)
    (hexists : fsPaths.contains (pathOf it.parent it.name) = true)
    (hnd : it.bothDirs = false) :
    (∀ nm, renameSearch (fun s => fsPaths.contains (pathOf it.parent s))
        (splitBaseExt it.name).1 (splitBaseExt it.name).2 = some nm →
      (∃ n, 1 ≤ n ∧ n ≤ 999
        ∧ nm = (splitBaseExt it.name).1 ++ "_" ++ toString n ++ (splitBaseExt it.name).2
        ∧ fsPaths.contains (pathOf it.parent nm) = false
        ∧ ∀ m, 1 ≤ m → m < n →
            fsPaths.contains (pathOf it.parent
              ((splitBaseExt it.name).1 ++ "_" ++ toString m ++ (splitBaseExt it.name).2))
              = true)
      ∧ (it.moveFails = false →
          move_files Collision.rename (it :: rest) fsPaths
            = ⟨(move_files Collision.rename rest
                  (pathOf it.parent nm :: fsPaths)).all_moved,
               (move_files Collision.rename rest
                  (pathOf it.parent nm :: fsPaths)).fsPaths,
               (it.name, pathOf it.parent nm)
                 :: (move_files Collision.rename rest
                      (pathOf it.parent nm :: fsPaths)).performed,
               (move_files Collision.rename rest
                  (pathOf it.parent nm :: fsPaths)).itemsProcessed + 1⟩))
    ∧ (renameSearch (fun s => fsPaths.contains (pathOf it.parent s))
          (splitBaseExt it.name).1 (splitBaseExt it.name).2 = none →
        move_files Collision.rename (it :: rest) fsPaths
          = ⟨false, (move_files Collision.rename rest fsPaths).fsPaths,
             (move_files Collision.rename rest fsPaths).performed,
             (move_files Collision.rename rest fsPaths).itemsProcessed + 1⟩
        ∧ (move_files Collision.rename (it :: rest) fsPaths).itemsProcessed
            = rest.length + 1) := by
  constructor
  · intro nm hsome
    constructor
    · rw [renameSearch] at hsome
      exact renameSearchAux_some _ _ _ 999 1 nm rfl hsome
    · intro hmf
      exact move_files_rename_step_some it rest fsPaths nm hexists hnd hmf hsome
  · intro hnone
    refine ⟨move_files_rename_step_none it rest fsPaths hexists hnd hnone, ?_⟩
    rw [move_files_processes_all]
    simp

/-- C7 (witness): with `file.txt` and `file_1.txt` taken, the item is
moved to `file_2.txt` (the smallest free `N` is 2); with `f.txt` and all
of `f_1.txt` … `f_999.txt` taken, the item is reported failed, yet a
further item is still processed. -/
theorem rename_collision_smallest_suffix_witness :
    (move_files Collision.rename [renameIt] renameFs).performed
        = [("file.txt", "d/file_2.txt")]
    ∧ (move_files Collision.rename (exhaustedIt :: [renameIt]) exhaustedFs).all_moved
        = false
    ∧ (move_files Collision.rename (exhaustedIt :: [renameIt]) exhaustedFs).itemsProcessed
        = 2 := by
  have h1 := rename_collision_smallest_suffix renameIt [] renameFs rfl rfl
  have h2 := rename_collision_smallest_suffix exhaustedIt [renameIt] exhaustedFs rfl rfl
  have hs := (h1.1 "file_2.txt" (by decide)).2 rfl
  have hn := h2.2 exhausted_renameSearch_none
  refine ⟨?_, ?_, hn.2⟩
  · rw [hs]
    rfl
  · rw [hn.1]
